import Mathlib

/-!
Shallow embedding of `simsurvey/cadence/simulsurvey.py` (classes `SimulSurvey`,
`SurveyPlan`, `LightcurveCollection`) and proofs about the behaviour of its
operations.  Machine floats are modelled by rationals (for table data) and by
real numbers (for the noise model); the NaN sentinel in the `field` column is
modelled by `Option.none`; python dicts are modelled by association lists;
fallible operations return `Except` or a success flag.  External collaborators
(sncosmo, the field geometry test `SurveyField.coord_in_field`, the spatial
query `coord2field`, numpy random draws, `np.linalg.cholesky`, and pickle) are
passed in as parameters, following the call contracts in the specification.
-/

namespace Simsurvey

/-- Python dict lookup `d[k]` (first occurrence wins, as keys are unique). -/
def lookupA {α : Type} : List (String × α) → String → Option α
  | [], _ => none
  | (k, v) :: rest, b => if k = b then some v else lookupA rest b

/-- Python dict assignment `d[k] = v`: overwrite in place, or append. -/
def updateA {α : Type} : List (String × α) → String → α → List (String × α)
  | [], b, v => [(b, v)]
  | (k, w) :: rest, b, v =>
    if k = b then (b, v) :: rest else (k, w) :: updateA rest b v

theorem lookupA_updateA_self {α : Type} (l : List (String × α)) (b : String) (v : α) :
    lookupA (updateA l b v) b = some v := by
  induction l with
  | nil => simp [updateA, lookupA]
  | cons kw rest ih =>
    by_cases h : kw.1 = b
    · simp [updateA, h, lookupA]
    · simp [updateA, h, lookupA, ih]

theorem lookupA_updateA_other {α : Type} (l : List (String × α)) (k b : String) (v : α)
    (h : k ≠ b) : lookupA (updateA l k v) b = lookupA l b := by
  induction l with
  | nil => simp [updateA, lookupA, h]
  | cons kw rest ih =>
    by_cases hk : kw.1 = k
    · simp [updateA, hk, lookupA, h]
    · by_cases hb : kw.1 = b
      · simp [updateA, hk, lookupA, hb, Ne.symm h]
      · simp [updateA, hk, lookupA, hb, ih]

/-- One row of `SurveyPlan.cadence` (astropy Table columns time, band,
skynoise, RA, Dec, field).  `field = none` models the NaN sentinel marking a
custom pointing (`SurveyPlan.add_observation`, line 586). -/
structure CadRow where
  time : ℚ
  band : String
  skynoise : ℚ
  ra : ℚ
  dec : ℚ
  field : Option ℕ
deriving DecidableEq, Repr

/-- One row of the table returned by `SurveyPlan.observed_on` (columns time,
band, skynoise; lines 727-744). -/
structure ObsRow where
  time : ℚ
  band : String
  skynoise : ℚ
deriving DecidableEq, Repr

def obsRowOf (r : CadRow) : ObsRow := ⟨r.time, r.band, r.skynoise⟩

/-- Comparison used by the time sort in `observed_on` (line 745). -/
def timeLE (a b : ObsRow) : Prop := a.time ≤ b.time

instance : DecidableRel timeLE := fun a b => inferInstanceAs (Decidable (a.time ≤ b.time))

instance : IsTotal ObsRow timeLE := ⟨fun a b => le_total a.time b.time⟩

instance : IsTrans ObsRow timeLE := ⟨fun _ _ _ h1 h2 => le_trans h1 h2⟩

/-- The row gathering of `SurveyPlan.observed_on` before sorting (lines
727-741): for each requested field id, in the order the ids are given, all
cadence rows with that field; then the rows of the sentinel-field subset
selected by the `non_field` index array, in index order. -/
def gatherRows (cad : List CadRow) (fields : Option (List ℕ))
    (non_field : Option (List ℕ)) : List ObsRow :=
  let fieldRows := match fields with
    | none => []
    | some fs => fs.flatMap (fun l => (cad.filter (fun r => r.field = some l)).map obsRowOf)
  let sent := cad.filter (fun r => r.field = none)
  let nfRows := match non_field with
    | none => []
    | some idxs => idxs.filterMap (fun i => (sent.get? i).map obsRowOf)
  fieldRows ++ nfRows

inductive PlanError
  | valueError
deriving DecidableEq, Repr

/-- Model of `SurveyPlan.observed_on` (lines 719-751).  The gathered rows are sorted by
time (`np.argsort`; on the short arrays considered here numpy falls back to
insertion sort, which keeps tied rows in pre-sort order, so the sort is
modelled by the stable `List.insertionSort`) and then restricted to the
`mjd_range` window, inclusive on both ends. -/
def observed_on (cad : List CadRow) (fields : Option (List ℕ))
    (non_field : Option (List ℕ)) (mjd_range : Option (ℚ × ℚ)) :
    Except PlanError (List ObsRow) :=
  if fields = none ∧ non_field = none then .error .valueError
  else
    let sorted := (gatherRows cad fields non_field).insertionSort timeLE
    match mjd_range with
    | none => .ok sorted
    | some d =>
      .ok (sorted.filter (fun r => decide (d.1 ≤ r.time) && decide (r.time ≤ d.2)))

/-- The row selection described by claim C5: matching rows taken in the
original plan-row order (each sentinel row is addressed by its index among the
sentinel rows), stable-sorted by time, then window-filtered.  This follows the
wording of the specification, for comparison with `observed_on`. -/
def claimGatherRows : List CadRow → Option (List ℕ) → Option (List ℕ) → ℕ → List ObsRow
  | [], _, _, _ => []
  | r :: rest, fields, non_field, sentIdx =>
    match r.field with
    | some f =>
      (if f ∈ fields.getD [] then [obsRowOf r] else []) ++
        claimGatherRows rest fields non_field sentIdx
    | none =>
      (if sentIdx ∈ non_field.getD [] then [obsRowOf r] else []) ++
        claimGatherRows rest fields non_field (sentIdx + 1)

/-- Claim C5 as a function: the output predicted by the claim text. -/
def claim_observed_on (cad : List CadRow) (fields : Option (List ℕ))
    (non_field : Option (List ℕ)) (mjd_range : Option (ℚ × ℚ)) :
    Except PlanError (List ObsRow) :=
  if fields = none ∧ non_field = none then .error .valueError
  else
    let sorted := (claimGatherRows cad fields non_field 0).insertionSort timeLE
    match mjd_range with
    | none => .ok sorted
    | some d =>
      .ok (sorted.filter (fun r => decide (d.1 ≤ r.time) && decide (r.time ≤ d.2)))

/-- Two pointings at the same time 5: plan row 0 is a custom (sentinel-field)
pointing with band a, plan row 1 belongs to field 1 with band b. -/
def exCad5 : List CadRow :=
  [⟨5, "a", 1, 0, 0, none⟩, ⟨5, "b", 1, 0, 0, some 1⟩]

/-- C5 counterexample: `observed_on` gathers the rows of the requested fields
before the custom-pointing rows, so on a time tie the field-1 row (plan row 1,
band b) is returned before the custom row (plan row 0, band a), while the
claim (ties broken by the original pointing-row order) predicts band a first.
The window and sort are otherwise as claimed. -/
theorem C5_counterexample :
    observed_on exCad5 (some [1]) (some [0]) (some (0, 10)) =
      .ok [⟨5, "b", 1⟩, ⟨5, "a", 1⟩] ∧
    claim_observed_on exCad5 (some [1]) (some [0]) (some (0, 10)) =
      .ok [⟨5, "a", 1⟩, ⟨5, "b", 1⟩] ∧
    observed_on exCad5 (some [1]) (some [0]) (some (0, 10)) ≠
      claim_observed_on exCad5 (some [1]) (some [0]) (some (0, 10)) := by
  have h1 : observed_on exCad5 (some [1]) (some [0]) (some (0, 10)) =
      .ok [⟨5, "b", 1⟩, ⟨5, "a", 1⟩] := rfl
  have h2 : claim_observed_on exCad5 (some [1]) (some [0]) (some (0, 10)) =
      .ok [⟨5, "a", 1⟩, ⟨5, "b", 1⟩] := rfl
  refine ⟨h1, h2, ?_⟩
  rw [h1, h2]
  intro h
  exact absurd (Except.ok.inj h) (by decide)

/-- C5 (amended): for every call with at least one of the field-id and
custom-pointing-index arguments given, `observed_on` succeeds and returns the
gathered matching rows (rows of each requested field id in request order,
followed by the selected custom rows) sorted by time ascending with ties kept
in gather order, restricted to the time window inclusive on both ends. -/
theorem C5_observed_on_sorted_window (cad : List CadRow) (fs nf : Option (List ℕ))
    (d0 d1 : ℚ) (h : ¬(fs = none ∧ nf = none)) :
    ∃ out, observed_on cad fs nf (some (d0, d1)) = .ok out ∧
      out.Sorted timeLE ∧
      (∀ r ∈ out, d0 ≤ r.time ∧ r.time ≤ d1) ∧
      out.Perm ((gatherRows cad fs nf).filter
        (fun r => decide (d0 ≤ r.time) && decide (r.time ≤ d1))) := by
  refine ⟨((gatherRows cad fs nf).insertionSort timeLE).filter
      (fun r => decide (d0 ≤ r.time) && decide (r.time ≤ d1)), ?_, ?_, ?_, ?_⟩
  · simp [observed_on, h]
  · exact (List.sorted_insertionSort timeLE (gatherRows cad fs nf)).filter _
  · intro r hr
    have := List.of_mem_filter hr
    simp only [Bool.and_eq_true, decide_eq_true_eq] at this
    exact this
  · exact (List.perm_insertionSort timeLE (gatherRows cad fs nf)).filter _

/-- Witness for C5 at a concrete input. -/
theorem C5_witness :
    ∃ out, observed_on exCad5 (some [1]) none (some (0, 10)) = .ok out ∧
      out.Sorted timeLE ∧
      (∀ r ∈ out, (0 : ℚ) ≤ r.time ∧ r.time ≤ 10) ∧
      out.Perm ((gatherRows exCad5 (some [1]) none).filter
        (fun r => decide ((0 : ℚ) ≤ r.time) && decide (r.time ≤ (10 : ℚ)))) :=
  C5_observed_on_sorted_window exCad5 (some [1]) none 0 10 (by decide)

/-- Per-row baseline flux uncertainty of `_get_lightcurve_` (lines 149-150):
`sqrt(skynoise_i^2 + |flux_i| / gain_i)`. -/
noncomputable def fluxerr {n : ℕ} (skynoise gain flux : Fin n → ℝ) (i : Fin n) : ℝ :=
  Real.sqrt (skynoise i ^ 2 + |flux i| / gain i)

/-- The contribution of one band of the calibration loop (lines 154-163): for
a band with a declared calibration error, the term added at entry (i, j) when
both rows carry that band. -/
noncomputable def calibTerm {n : ℕ} (err_calib : String → Option ℝ) (band : Fin n → String)
    (flux : Fin n → ℝ) (b : String) (i j : Fin n) : ℝ :=
  match err_calib b with
  | some e => if band i = b ∧ band j = b then flux i * flux j * e ^ 2 else 0
  | none => 0

/-- The flux covariance matrix built in `_get_lightcurve_` (lines 152-163):
start from the diagonal of squared `fluxerr`, then loop over the set of
distinct bands and add the calibration terms. -/
noncomputable def fluxcov {n : ℕ} (err_calib : String → Option ℝ) (band : Fin n → String)
    (skynoise gain flux : Fin n → ℝ) (i j : Fin n) : ℝ :=
  (if i = j then fluxerr skynoise gain flux i ^ 2 else 0) +
    ∑ b ∈ Finset.univ.image band, calibTerm err_calib band flux b i j

/-- The covariance entry as stated by claim C2: diagonal of
`skynoise^2 + |flux|/gain` plus a pair term exactly when the two rows share a
band with a declared calibration error. -/
noncomputable def claimCov {n : ℕ} (err_calib : String → Option ℝ) (band : Fin n → String)
    (skynoise gain flux : Fin n → ℝ) (i j : Fin n) : ℝ :=
  (if i = j then skynoise i ^ 2 + |flux i| / gain i else 0) +
    (if band i = band j then
      match err_calib (band i) with
      | some e => flux i * flux j * e ^ 2
      | none => 0
     else 0)

/-- C2: with positive gains, every entry of the covariance matrix equals the
diagonal `fluxerr^2` term plus `flux_i * flux_j * e^2` exactly when rows i and
j share a band with declared calibration error e; bands without a declared
calibration error contribute nothing off the diagonal. -/
theorem C2_fluxcov_entries {n : ℕ} (err_calib : String → Option ℝ)
    (band : Fin n → String) (skynoise gain flux : Fin n → ℝ)
    (h : ∀ i, 0 < gain i) (i j : Fin n) :
    fluxcov err_calib band skynoise gain flux i j =
      claimCov err_calib band skynoise gain flux i j := by
  have hdiag : fluxerr skynoise gain flux i ^ 2 = skynoise i ^ 2 + |flux i| / gain i := by
    unfold fluxerr
    exact Real.sq_sqrt
      (add_nonneg (sq_nonneg _) (div_nonneg (abs_nonneg _) (le_of_lt (h i))))
  have hsum : (∑ b ∈ Finset.univ.image band, calibTerm err_calib band flux b i j) =
      (if band i = band j then
        match err_calib (band i) with
        | some e => flux i * flux j * e ^ 2
        | none => 0
       else 0) := by
    have hcollapse : (∑ b ∈ Finset.univ.image band, calibTerm err_calib band flux b i j) =
        calibTerm err_calib band flux (band i) i j := by
      apply Finset.sum_eq_single_of_mem
      · exact Finset.mem_image_of_mem band (Finset.mem_univ i)
      · intro b _ hne
        unfold calibTerm
        cases err_calib b with
        | none => rfl
        | some e =>
          show (if band i = b ∧ band j = b then flux i * flux j * e ^ 2 else 0) = 0
          rw [if_neg]
          intro hc
          exact hne hc.1.symm
    rw [hcollapse]
    unfold calibTerm
    cases herr : err_calib (band i) with
    | none => simp
    | some e =>
      by_cases hb : band i = band j
      · rw [if_pos hb]
        simp [hb.symm]
      · rw [if_neg hb]
        simp [Ne.symm hb]
  unfold fluxcov claimCov
  rw [hdiag, hsum]

/-- Witness for C2: a two-row design sharing band r with calibration error. -/
theorem C2_fluxcov_entries_witness :
    fluxcov (fun _ => some 1) (fun _ => "r") (fun _ => 1) (fun _ => 1) (fun _ => 1)
        (0 : Fin 2) (1 : Fin 2) =
      claimCov (fun _ => some 1) (fun _ => "r") (fun _ => 1) (fun _ => 1) (fun _ => 1)
        (0 : Fin 2) (1 : Fin 2) :=
  C2_fluxcov_entries (fun _ => some 1) (fun _ => "r") (fun _ => 1) (fun _ => 1)
    (fun _ => 1) (fun _ => one_pos) 0 1

/-- The flux realization steps of `_get_lightcurve_` (lines 165-177).  The
independent standard-normal draw z and the Cholesky routine
(`np.linalg.cholesky`) are external inputs; `blinded_bias` is the per-band
offset dict held by the survey.  Returns the realized flux column and the
reported fluxerr column. -/
noncomputable def realizeFluxes {n : ℕ} (err_calib : String → Option ℝ) (band : Fin n → String)
    (skynoise gain lcflux : Fin n → ℝ) (blinded_bias : Option (List (String × ℝ)))
    (cholesky : (Fin n → Fin n → ℝ) → (Fin n → Fin n → ℝ)) (z : Fin n → ℝ) :
    (Fin n → ℝ) × (Fin n → ℝ) :=
  let cov := fluxcov err_calib band skynoise gain lcflux
  let chol := cholesky cov
  let flux := fun i => lcflux i + ∑ j, chol i j * z j
  let flux2 := match blinded_bias with
    | none => flux
    | some bias => fun i =>
        flux i * (10 : ℝ) ^ (-(0.4 : ℝ) * ((lookupA bias (band i)).getD 0))
  (flux2, fun i => Real.sqrt (cov i i))

/-- C6: with a configured blinded bias map, each realized flux is the noiseless
flux plus the correlated noise draw, the whole multiplied by
`10^(-0.4 * bias[band])` with bias defaulting to 0 for absent bands (bias after
noise); the reported fluxerr is the square root of the covariance diagonal and
is identical to the fluxerr reported with no bias configured. -/
theorem C6_bias_after_noise {n : ℕ} (err_calib : String → Option ℝ)
    (band : Fin n → String) (skynoise gain lcflux : Fin n → ℝ)
    (m : List (String × ℝ)) (cholesky : (Fin n → Fin n → ℝ) → (Fin n → Fin n → ℝ))
    (z : Fin n → ℝ) (i : Fin n) :
    (realizeFluxes err_calib band skynoise gain lcflux (some m) cholesky z).1 i =
      (lcflux i +
          ∑ j, cholesky (fluxcov err_calib band skynoise gain lcflux) i j * z j) *
        (10 : ℝ) ^ (-(0.4 : ℝ) * ((lookupA m (band i)).getD 0)) ∧
    (realizeFluxes err_calib band skynoise gain lcflux (some m) cholesky z).2 i =
      Real.sqrt (fluxcov err_calib band skynoise gain lcflux i i) ∧
    (realizeFluxes err_calib band skynoise gain lcflux (some m) cholesky z).2 =
      (realizeFluxes err_calib band skynoise gain lcflux none cholesky z).2 :=
  ⟨rfl, rfl, rfl⟩

/-- State of a `LightcurveCollection` (properties `lcs` and `meta`): an
optional list of lightcurve bodies (the structured arrays produced by
`standardize_data`, kept opaque at type β) and an optional ordered dict
mapping each metadata key to its grown array of values (type γ).  A fresh
collection (`empty=True`) has both properties equal to python None. -/
structure LCCollection (β γ : Type) where
  lcs : Option (List β)
  meta : Option (List (String × List γ))
deriving DecidableEq, Repr

/-- Model of `LightcurveCollection._create_meta_` (lines 905-911): fix the schema from
the keys of the first item, with empty arrays.  Value kinds are not modelled
beyond the element type γ. -/
def create_meta {γ : Type} (m : List (String × γ)) : List (String × List γ) :=
  m.map (fun kv => (kv.1, ([] : List γ)))

/-- The key loop of `_add_meta_` (lines 899-903): walk the schema keys in
order and append `meta[k]` to each array.  A key absent from the new item
raises KeyError there; arrays of keys already processed keep their new value
while the remaining arrays are untouched (python mutates in place).  The Bool
is the no-exception flag. -/
def addMetaLoop {γ : Type} : List (String × List γ) → List (String × γ) →
    List (String × List γ) × Bool
  | [], _ => ([], true)
  | (k, arr) :: rest, m =>
    match lookupA m k with
    | some v =>
      let r := addMetaLoop rest m
      ((k, arr ++ [v]) :: r.1, r.2)
    | none => ((k, arr) :: rest, false)

/-- Model of `LightcurveCollection._add_meta_` for a single item (lines 878-903,
non-list branch): create the schema from the item if unset, then run the key
loop.  Keys of the item that are not in the schema are never read. -/
def add_meta {γ : Type} (meta : Option (List (String × List γ)))
    (m : List (String × γ)) : Option (List (String × List γ)) × Bool :=
  let schema := match meta with
    | none => create_meta m
    | some s => s
  let r := addMetaLoop schema m
  (some r.1, r.2)

/-- Model of `LightcurveCollection.add` for a single lightcurve (lines 821-830):
`_add_lcs_` appends the body first (lines 866-876, with `standardize_data`
applied by the caller), then `_add_meta_` runs; if the metadata step raises,
the body append is already committed.  The Bool is the no-exception flag. -/
def LCadd {β γ : Type} (c : LCCollection β γ) (body : β) (m : List (String × γ)) :
    LCCollection β γ × Bool :=
  let lcs2 := c.lcs.getD [] ++ [body]
  let r := add_meta c.meta m
  (⟨some lcs2, r.1⟩, r.2)

/-- The lockstep invariant of claim C4: every metadata array has one entry per
stored body (with no schema yet, no body is stored either). -/
def lockstep {β γ : Type} (c : LCCollection β γ) : Prop :=
  match c.meta with
  | none => c.lcs = none ∨ c.lcs = some []
  | some s => ∀ kv ∈ s, kv.2.length = (c.lcs.getD []).length

/-- C3 counterexample: after a first add fixes the schema to the single key
mwebv, a second add whose metadata carries the extra key extra succeeds (flag
true) instead of failing: the extra key is silently ignored. -/
theorem C3_counterexample :
    (LCadd (LCadd (⟨none, none⟩ : LCCollection ℕ ℚ) 0 [("mwebv", 1)]).1
        1 [("mwebv", 2), ("extra", 3)]).2 = true ∧
    (LCadd (LCadd (⟨none, none⟩ : LCCollection ℕ ℚ) 0 [("mwebv", 1)]).1
        1 [("mwebv", 2), ("extra", 3)]).1.meta = some [("mwebv", [1, 2])] := by
  constructor <;> rfl

/-- C3 (amended): the first add fixes the metadata schema from the keys of the
first item; a later add succeeds exactly when every schema key is present in
the new metadata (a missing key fails), and the stored schema keys stay those
of the first item, so extra keys are silently ignored rather than rejected. -/
theorem C3_schema_check {β γ : Type} (c : LCCollection β γ)
    (s : List (String × List γ)) (b : β) (m : List (String × γ))
    (h : c.meta = some s) :
    ((LCadd c b m).2 = true ↔ ∀ kv ∈ s, (lookupA m kv.1).isSome) ∧
    ∃ s2, (LCadd c b m).1.meta = some s2 ∧ s2.map Prod.fst = s.map Prod.fst := by
  have hloop : ∀ (sch : List (String × List γ)),
      ((addMetaLoop sch m).2 = true ↔ ∀ kv ∈ sch, (lookupA m kv.1).isSome) ∧
      (addMetaLoop sch m).1.map Prod.fst = sch.map Prod.fst := by
    intro sch
    induction sch with
    | nil => simp [addMetaLoop]
    | cons kv rest ih =>
      cases hk : lookupA m kv.1 with
      | some v =>
        constructor
        · simp only [addMetaLoop, hk]
          rw [ih.1]
          simp [hk]
        · simp only [addMetaLoop, hk]
          simp [ih.2]
      | none =>
        constructor
        · simp only [addMetaLoop, hk]
          constructor
          · intro hfalse
            exact absurd hfalse (by simp)
          · intro hall
            have := hall kv (by simp)
            rw [hk] at this
            exact absurd this (by simp)
        · simp only [addMetaLoop, hk]
  constructor
  · show (add_meta c.meta m).2 = true ↔ _
    rw [h]
    exact (hloop s).1
  · refine ⟨(addMetaLoop s m).1, ?_, (hloop s).2⟩
    show (add_meta c.meta m).1 = _
    rw [h]
    rfl

/-- Witness for C3 at a concrete input. -/
theorem C3_witness :
    (((LCadd (⟨some [0], some [("mwebv", [1])]⟩ : LCCollection ℕ ℚ)
          1 [("mwebv", 2)]).2 = true ↔
        ∀ kv ∈ [("mwebv", [(1 : ℚ)])], (lookupA [("mwebv", (2 : ℚ))] kv.1).isSome) ∧
      ∃ s2, (LCadd (⟨some [0], some [("mwebv", [1])]⟩ : LCCollection ℕ ℚ)
          1 [("mwebv", 2)]).1.meta = some s2 ∧
        s2.map Prod.fst = [("mwebv", [(1 : ℚ)])].map Prod.fst) :=
  C3_schema_check (⟨some [0], some [("mwebv", [1])]⟩ : LCCollection ℕ ℚ)
    [("mwebv", [1])] 1 [("mwebv", 2)] rfl

/-- C4 counterexample: starting from a fresh collection, a first add succeeds;
a second add whose metadata is missing the schema key fails, yet it commits
the body: afterwards there are 2 bodies but only 1 metadata row, so the
lockstep invariant is broken by a failing add. -/
theorem C4_counterexample :
    (LCadd (LCadd (⟨none, none⟩ : LCCollection ℕ ℚ) 0 [("mwebv", 1)]).1 1 []).2 = false ∧
    ((LCadd (LCadd (⟨none, none⟩ : LCCollection ℕ ℚ) 0 [("mwebv", 1)]).1 1 []).1.lcs.getD
      []).length = 2 ∧
    (LCadd (LCadd (⟨none, none⟩ : LCCollection ℕ ℚ) 0 [("mwebv", 1)]).1 1 []).1.meta =
      some [("mwebv", [1])] ∧
    ¬ lockstep (LCadd (LCadd (⟨none, none⟩ : LCCollection ℕ ℚ) 0 [("mwebv", 1)]).1 1 []).1 := by
  refine ⟨rfl, rfl, rfl, ?_⟩
  intro hl
  have h2 : ∀ kv ∈ [("mwebv", ([1] : List ℚ))], kv.2.length = ([0, 1] : List ℕ).length := hl
  have := h2 ("mwebv", [1]) (by simp)
  simp at this

/-- C4 (amended): an add that succeeds preserves the lockstep invariant
(bodies and metadata arrays grow together), but a failing add commits the body
without a full metadata row, so the invariant only holds across successful
adds. -/
theorem C4_success_preserves_lockstep {β γ : Type} (c : LCCollection β γ)
    (b : β) (m : List (String × γ)) (hinv : lockstep c)
    (hok : (LCadd c b m).2 = true) :
    lockstep (LCadd c b m).1 := by
  have hlooplen : ∀ (sch : List (String × List γ)), (addMetaLoop sch m).2 = true →
      ∀ kv ∈ (addMetaLoop sch m).1, ∃ kv0 ∈ sch, kv.2.length = kv0.2.length + 1 := by
    intro sch
    induction sch with
    | nil => simp [addMetaLoop]
    | cons kv0 rest ih =>
      cases hk : lookupA m kv0.1 with
      | some v =>
        simp only [addMetaLoop, hk]
        intro hok2 kv hkv
        rcases List.mem_cons.1 hkv with hkv | hkv
        · exact ⟨kv0, List.mem_cons_self _ _, by rw [hkv]; simp⟩
        · rcases ih hok2 kv hkv with ⟨kv1, hkv1, hlen⟩
          exact ⟨kv1, List.mem_cons_of_mem _ hkv1, hlen⟩
      | none => simp [addMetaLoop, hk]
  cases hmeta : c.meta with
  | none =>
    have hlcs : c.lcs.getD [] = [] := by
      unfold lockstep at hinv
      rw [hmeta] at hinv
      rcases hinv with h0 | h0 <;> simp [h0]
    show lockstep ⟨some (c.lcs.getD [] ++ [b]), (add_meta c.meta m).1⟩
    unfold lockstep
    simp only [add_meta, hmeta]
    intro kv hkv
    have hok2 : (addMetaLoop (create_meta m) m).2 = true := by
      have heq : (LCadd c b m).2 = (addMetaLoop (create_meta m) m).2 := by
        show (add_meta c.meta m).2 = _
        rw [hmeta]
        rfl
      rw [← heq, hok]
    rcases hlooplen (create_meta m) hok2 kv hkv with ⟨kv0, hkv0, hlen⟩
    have hkv0len : kv0.2.length = 0 := by
      rcases List.mem_map.1 hkv0 with ⟨kv1, _, hkv1⟩
      rw [← hkv1]
      rfl
    simp [hlen, hkv0len, hlcs]
  | some s =>
    show lockstep ⟨some (c.lcs.getD [] ++ [b]), (add_meta c.meta m).1⟩
    unfold lockstep
    simp only [add_meta, hmeta]
    intro kv hkv
    have hok2 : (addMetaLoop s m).2 = true := by
      have heq : (LCadd c b m).2 = (addMetaLoop s m).2 := by
        show (add_meta c.meta m).2 = _
        rw [hmeta]
        rfl
      rw [← heq, hok]
    rcases hlooplen s hok2 kv hkv with ⟨kv0, hkv0, hlen⟩
    have hkv0len : kv0.2.length = (c.lcs.getD []).length := by
      unfold lockstep at hinv
      rw [hmeta] at hinv
      exact hinv kv0 hkv0
    simp [hlen, hkv0len]

/-- Witness for C4 at a concrete input. -/
theorem C4_success_preserves_lockstep_witness :
    lockstep (LCadd (⟨some [0], some [("mwebv", [1])]⟩ : LCCollection ℕ ℚ)
      1 [("mwebv", 2)]).1 :=
  C4_success_preserves_lockstep (⟨some [0], some [("mwebv", [1])]⟩ : LCCollection ℕ ℚ)
    1 [("mwebv", 2)]
    (by intro kv hkv; simp at hkv; simp [hkv]) rfl

/-- The pickled blob written by `LightcurveCollection.save` (lines 839-844):
the dict holding the raw `lcs` and `meta` properties.  The filesystem together
with the pickle round-trip contract (an external collaborator) is modelled as
a path-indexed store of blobs. -/
structure SavedBlob (β γ : Type) where
  lcs : Option (List β)
  meta : Option (List (String × List γ))
deriving DecidableEq, Repr

/-- Model of `LightcurveCollection.save` (lines 839-844). -/
def LCsave {β γ : Type} (c : LCCollection β γ) (store : List (String × SavedBlob β γ))
    (path : String) : List (String × SavedBlob β γ) :=
  updateA store path ⟨c.lcs, c.meta⟩

/-- Model of `LightcurveCollection.load` (lines 832-837): set both properties from the
loaded dict. -/
def LCload {β γ : Type} (store : List (String × SavedBlob β γ)) (path : String) :
    Option (LCCollection β γ) :=
  (lookupA store path).map (fun blob => ⟨blob.lcs, blob.meta⟩)

/-- C8: save followed by load from the same path restores the collection
exactly: every stored body and every metadata array is equal to its pre-save
value (values are exact Lean data, matching the bit-exact pickle contract). -/
theorem C8_save_load_roundtrip {β γ : Type} (c : LCCollection β γ)
    (store : List (String × SavedBlob β γ)) (path : String) :
    LCload (LCsave c store path) path = some c ∧
    (∀ i : ℕ, (LCload (LCsave c store path) path).map
        (fun c2 => (c2.lcs.getD []).get? i) = some ((c.lcs.getD []).get? i)) ∧
    (∀ i : ℕ, (LCload (LCsave c store path) path).map
        (fun c2 => (c2.meta.getD []).get? i) = some ((c.meta.getD []).get? i)) := by
  have h : LCload (LCsave c store path) path = some c := by
    unfold LCload LCsave
    rw [lookupA_updateA_self]
    rfl
  exact ⟨h, fun i => by rw [h]; rfl, fun i => by rw [h]; rfl⟩

/-- The per-band dict passed to `set_instruments` before defaults are applied:
gain and zp may be missing or None (both abort), zpsys defaults to ab and
err_calib to None (lines 259-262). -/
structure InstPropIn where
  gain : Option ℚ
  zp : Option ℚ
  zpsys : Option String
  err_calib : Option ℚ
deriving DecidableEq, Repr

/-- One entry of `SimulSurvey.instruments` as built by `add_instrument`
(line 299). -/
structure InstSpec where
  gain : ℚ
  zp : ℚ
  zpsys : String
  err_calib : Option ℚ
deriving DecidableEq, Repr

/-- Model of `SimulSurvey.add_instrument` (lines 287-304): initialize the dict when it
is None, then assign the band entry; with the default `force_it=True` an
existing band is overwritten in place. -/
def add_instrument (instr : Option (List (String × InstSpec))) (b : String)
    (spec : InstSpec) : List (String × InstSpec) :=
  updateA (instr.getD []) b spec

/-- Model of `SimulSurvey.set_instruments` (lines 241-266): loop over the given bands;
a band with missing or None gain or zp raises (bands already processed stay
committed; the Bool flag false models the raise), every other band is added
via `add_instrument` with defaults zpsys=ab and err_calib=None. -/
def set_instruments : Option (List (String × InstSpec)) → List (String × InstPropIn) →
    Option (List (String × InstSpec)) × Bool
  | instr, [] => (instr, true)
  | instr, (b, d) :: rest =>
    match d.gain, d.zp with
    | some g, some z =>
      set_instruments (some (add_instrument instr b
        ⟨g, z, d.zpsys.getD "ab", d.err_calib⟩)) rest
    | _, _ => (instr, false)

theorem set_instruments_preserves (props : List (String × InstPropIn)) (b : String) :
    ∀ instr0 : List (String × InstSpec), b ∉ props.map Prod.fst →
      lookupA ((set_instruments (some instr0) props).1.getD []) b = lookupA instr0 b := by
  induction props with
  | nil => intro instr0 _; rfl
  | cons kd rest ih =>
    intro instr0 hb
    obtain ⟨k, d⟩ := kd
    simp only [List.map_cons, List.mem_cons] at hb
    push_neg at hb
    obtain ⟨hk, hrest⟩ := hb
    cases hg : d.gain with
    | none => simp only [set_instruments, hg]; rfl
    | some g =>
      cases hz : d.zp with
      | none => simp only [set_instruments, hg, hz]; rfl
      | some z =>
        simp only [set_instruments, hg, hz]
        rw [ih _ hrest]
        exact lookupA_updateA_other instr0 k b _ (Ne.symm hk)

/-- Overwriting step of `set_instruments`: with distinct band keys, a band
present in the properties of a call whose loop completes ends up mapped to the
newly built spec. -/
theorem set_instruments_overwrites (props : List (String × InstPropIn)) (b : String)
    (d : InstPropIn) (g z : ℚ) :
    ∀ instr0 : List (String × InstSpec), (props.map Prod.fst).Nodup → (b, d) ∈ props →
      d.gain = some g → d.zp = some z →
      (set_instruments (some instr0) props).2 = true →
      lookupA ((set_instruments (some instr0) props).1.getD []) b =
        some ⟨g, z, d.zpsys.getD "ab", d.err_calib⟩ := by
  induction props with
  | nil =>
    intro instr0 _ hmem _ _ _
    exact absurd hmem (List.not_mem_nil _)
  | cons kd rest ih =>
    intro instr0 hnodup hmem hgain hzp hok
    obtain ⟨k, d0⟩ := kd
    cases hg : d0.gain with
    | none =>
      rw [show set_instruments (some instr0) ((k, d0) :: rest) = (some instr0, false) by
        simp only [set_instruments, hg]] at hok
      exact absurd hok (by simp)
    | some g0 =>
      cases hz : d0.zp with
      | none =>
        rw [show set_instruments (some instr0) ((k, d0) :: rest) = (some instr0, false) by
          simp only [set_instruments, hg, hz]] at hok
        exact absurd hok (by simp)
      | some z0 =>
        have hstep : set_instruments (some instr0) ((k, d0) :: rest) =
            set_instruments (some (updateA instr0 k
              ⟨g0, z0, d0.zpsys.getD "ab", d0.err_calib⟩)) rest := by
          simp only [set_instruments, hg, hz]
          rfl
        rcases List.mem_cons.1 hmem with hhead | htail
        · have hkb : k = b := (congrArg Prod.fst hhead).symm
          have hd : d0 = d := (congrArg Prod.snd hhead).symm
          have hrest : b ∉ rest.map Prod.fst := by
            simp only [List.map_cons] at hnodup
            rw [hkb] at hnodup
            exact (List.nodup_cons.1 hnodup).1
          rw [hstep, hkb, set_instruments_preserves rest b _ hrest, lookupA_updateA_self]
          rw [hd] at hg hz
          rw [hgain] at hg
          rw [hzp] at hz
          rw [hd, ← Option.some.inj hg, ← Option.some.inj hz]
        · have hnodup2 : (rest.map Prod.fst).Nodup := by
            simp only [List.map_cons] at hnodup
            exact hnodup.of_cons
          rw [hstep] at hok ⊢
          exact ih _ hnodup2 htail hgain hzp hok

/-- C10: `set_instruments` merges into the existing instrument dict: a band
configured before the call and absent from the new properties keeps its entry
unchanged (regardless of whether the loop later aborts), while a band present
in the properties of a completing call (with distinct keys) ends up
overwritten with the new spec (gain, zp, zpsys defaulting to ab, err_calib
defaulting to None). -/
theorem C10_set_instruments_merges (props : List (String × InstPropIn)) (b : String)
    (instr0 : List (String × InstSpec)) :
    (b ∉ props.map Prod.fst →
      lookupA ((set_instruments (some instr0) props).1.getD []) b = lookupA instr0 b) ∧
    (∀ d g z, (props.map Prod.fst).Nodup → (b, d) ∈ props →
      d.gain = some g → d.zp = some z →
      (set_instruments (some instr0) props).2 = true →
      lookupA ((set_instruments (some instr0) props).1.getD []) b =
        some ⟨g, z, d.zpsys.getD "ab", d.err_calib⟩) :=
  ⟨fun hb => set_instruments_preserves props b instr0 hb,
   fun d g z hnodup hmem hgain hzp hok =>
     set_instruments_overwrites props b d g z instr0 hnodup hmem hgain hzp hok⟩

/-- Example instrument dict and update properties for the C10 witness. -/
def exInstr0 : List (String × InstSpec) := [("u", ⟨1, 30, "ab", none⟩)]

def exProps : List (String × InstPropIn) := [("v", ⟨some 2, some 25, none, none⟩)]

/-- Witness for C10 at a concrete input: band u keeps its entry, band v gets
the new spec. -/
theorem C10_set_instruments_merges_witness :
    lookupA ((set_instruments (some exInstr0) exProps).1.getD []) "u" =
      lookupA exInstr0 "u" ∧
    lookupA ((set_instruments (some exInstr0) exProps).1.getD []) "v" =
      some ⟨2, 25, "ab", none⟩ :=
  ⟨(C10_set_instruments_merges exProps "u" exInstr0).1 (by decide),
   (C10_set_instruments_merges exProps "v" exInstr0).2
     ⟨some 2, some 25, none, none⟩ 2 25 (by decide)
     (by exact List.mem_singleton.2 rfl) rfl rfl rfl⟩

/-- Model of `SurveyPlan.get_non_field_obs` (lines 681-717), in the array-coordinate
branch used by `SimulSurvey`.  The geometric footprint test
`SurveyField.coord_in_field` is an external collaborator, passed as `inField`.
Result: per position, the ascending list of indices (within the sentinel-field
subset of the cadence) of the custom pointings containing it; None when no
position is contained in any custom pointing (so also when the plan has no
custom pointings at all). -/
def get_non_field_obs (cad : List CadRow) (inField : CadRow → ℚ × ℚ → Bool)
    (ps : List (ℚ × ℚ)) : Option (List (List ℕ)) :=
  let sent := cad.filter (fun r => r.field = none)
  let out := ps.map (fun p => (sent.enum.filter (fun kr => inField kr.2 p)).map Prod.fst)
  if out.any (fun l => !l.isEmpty) then some out else none

/-- Cache state of the derived properties `non_field_obs` and
`non_field_obs_exist` of `SimulSurvey`; python None is modelled by none, and
the python test `x is False` by `x = some false`. -/
structure NfoState where
  cached : Option (List (List ℕ))
  exist : Option Bool
deriving DecidableEq, Repr

/-- A fresh cache: both derived properties are python None, as after
`__build__` or after `set_plan` resets them (lines 394-398). -/
def freshNfo : NfoState := ⟨none, none⟩

/-- One read of the property `SimulSurvey.non_field_obs` (lines 449-463):
possibly assign the cache (lines 452-454, guarded by
`cached is None and exist is False`), set the exist flag from the cache
(lines 456-459), then return either one None per transient (line 462) or the
cached per-transient assignment (line 463). -/
def nonFieldObsProp (s : NfoState) (cad : List CadRow)
    (inField : CadRow → ℚ × ℚ → Bool) (ps : List (ℚ × ℚ)) (ntransient : ℕ) :
    List (Option (List ℕ)) × NfoState :=
  let s1 := if s.cached = none ∧ s.exist = some false
    then ({ cached := get_non_field_obs cad inField ps, exist := s.exist } : NfoState)
    else s
  let s2 : NfoState := { cached := s1.cached, exist := some s1.cached.isSome }
  if s2.exist = some false then (List.replicate ntransient none, s2)
  else ((s1.cached.getD []).map some, s2)

/-- Model of `SurveyPlan` state (properties cadence, width, height and the side
property fields).  The field catalog `SurveyFieldBins` is external: only
whether it is set is kept here, and its spatial query is passed separately as
`coord2field`. -/
structure Plan where
  cadence : List CadRow
  width : ℚ
  height : ℚ
  hasFields : Bool
deriving DecidableEq, Repr

/-- Model of `SurveyPlan.get_obs_fields` (lines 671-679): the batched spatial query
runs only when the field catalog is set and not every pointing carries the
NaN sentinel; otherwise the result is None (`np.all` over an empty cadence is
true, so an empty plan also yields None). -/
def get_obs_fields (p : Plan) (coord2field : List (ℚ × ℚ) → List (List ℕ))
    (ps : List (ℚ × ℚ)) : Option (List (List ℕ)) :=
  if p.hasFields ∧ ¬ (p.cadence.all (fun r => r.field.isNone)) then
    some (coord2field ps)
  else none

/-- The transient generator collaborator: positions, reference epochs,
redshifts, transient count, and the rest-frame model time bounds
(`generator.model.mintime()` and `maxtime()`). -/
structure Generator where
  ra : List ℚ
  dec : List ℚ
  mjd : List ℚ
  zcmb : List ℚ
  mintime : ℚ
  maxtime : ℚ
  ntransient : ℕ
deriving DecidableEq, Repr

/-- One row of the per-transient observation table yielded by
`_get_observations_` (lines 358-365). -/
structure DesignRow where
  time : ℚ
  band : String
  skynoise : ℚ
  gain : ℚ
  zp : ℚ
  zpsys : String
deriving DecidableEq, Repr

/-- Build one design row from an observation row and the instrument dict;
after the band check the lookup cannot fail, so the default is unreachable. -/
def designRow (instr : List (String × InstSpec)) (r : ObsRow) : DesignRow :=
  let spec := (lookupA instr r.band).getD ⟨0, 0, "ab", none⟩
  ⟨r.time, r.band, r.skynoise, spec.gain, spec.zp, spec.zpsys⟩

/-- Errors raised by `get_lightcurves`: the AttributeError of line 114, the
ValueError of lines 341-343, and the TypeError raised by `zip(None, ...)` at
line 354 when the field assignment is None. -/
inductive RunError
  | notConfigured
  | unknownInstrument
  | typeError
deriving DecidableEq, Repr

/-- Model of `SimulSurvey` configuration state (properties generator, plan,
instruments). -/
structure Survey where
  generator : Option Generator
  plan : Option Plan
  instruments : Option (List (String × InstSpec))
deriving DecidableEq, Repr

/-- Model of the body of the generator `_get_observations_` (lines 329-367),
which runs only when the generator is first advanced: the band check (lines
339-343, membership of every cadence band, equivalent to membership of every
distinct band); the lazily assigned field and custom-pointing caches, read
once each on the fresh state; the zip over transients (line 354, raising
TypeError when the field assignment is None); and for each transient
`observed_on` over its visibility window `mjd + mintime*(1+z)` to
`mjd + maxtime*(1+z)` (lines 349-350), a transient with an empty table
yielding None (unobserved, lines 357-367). -/
def observationsBody (gen : Generator) (plan : Plan)
    (instr : List (String × InstSpec))
    (coord2field : List (ℚ × ℚ) → List (List ℕ))
    (inField : CadRow → ℚ × ℚ → Bool) :
    Except RunError (List (Option (List DesignRow))) :=
  if (plan.cadence.map (fun r => r.band)).all (fun b => (lookupA instr b).isSome) then
    let ps := gen.ra.zip gen.dec
    match get_obs_fields plan coord2field ps with
    | none => .error .typeError
    | some obsFields =>
      let nfo := (nonFieldObsProp freshNfo plan.cadence inField ps gen.ntransient).1
      let d0s := gen.mjd.zipWith (fun m z => m + gen.mintime * (1 + z)) gen.zcmb
      let d1s := gen.mjd.zipWith (fun m z => m + gen.maxtime * (1 + z)) gen.zcmb
      let quads := (obsFields.zip nfo).zip (d0s.zip d1s)
      .ok (quads.map (fun q =>
        match observed_on plan.cadence (some q.1.1) q.1.2 (some (q.2.1, q.2.2)) with
        | .ok rows =>
          if rows.length > 0 then some (rows.map (designRow instr)) else none
        | .error _ => none))
  else .error .unknownInstrument

/-- Model of `SimulSurvey.get_lightcurves` (lines 94-135, default path without
a progress bar) up to the per-transient observation designs; the noise
realization applied to each design is the separate `realizeFluxes`.  The
`is_set` check (line 113) is eager, but every other check sits in the body of
the `_get_observations_` generator, and `izip` (line 117) pulls a transient
parameter before it first advances that generator: with an empty transient
catalog the body never runs, so the run returns an empty collection without
raising even when a band is unknown or the field assignment is None. -/
def get_lightcurves_designs (s : Survey)
    (coord2field : List (ℚ × ℚ) → List (List ℕ))
    (inField : CadRow → ℚ × ℚ → Bool) :
    Except RunError (List (Option (List DesignRow))) :=
  match s.generator, s.plan, s.instruments with
  | some gen, some plan, some instr =>
    if gen.ntransient = 0 then .ok []
    else observationsBody gen plan instr coord2field inField
  | _, _, _ => .error .notConfigured

/-- A generator with an empty transient catalog. -/
def exGen0 : Generator := ⟨[], [], [], [], -5, 20, 0⟩

/-- Example components for the survey-level theorems. -/
def exGen : Generator := ⟨[10], [10], [5], [0], -5, 20, 1⟩

def exPlanF : Plan := ⟨[⟨0, "g", 1, 10, 10, some 1⟩], 7, 7, true⟩

def exPlanC : Plan := ⟨[⟨0, "g", 1, 10, 10, none⟩], 7, 7, false⟩

def exInstrG : List (String × InstSpec) := [("g", ⟨1, 30, "ab", none⟩)]

/-- C7 counterexample: a configured survey whose plan uses band g with an
empty instrument dict, but whose transient catalog is empty.  The band check
never runs (the observations generator is never advanced) and the run returns
an empty collection instead of failing with the unknown-instrument error, so
the original claim fails as stated. -/
theorem C7_counterexample :
    (∃ r ∈ exPlanF.cadence, lookupA ([] : List (String × InstSpec)) r.band = none) ∧
    get_lightcurves_designs ⟨some exGen0, some exPlanF, some []⟩ (fun _ => [])
      (fun _ _ => true) = .ok [] ∧
    get_lightcurves_designs ⟨some exGen0, some exPlanF, some []⟩ (fun _ => [])
      (fun _ _ => true) ≠ .error .unknownInstrument := by
  refine ⟨⟨⟨0, "g", 1, 10, 10, some 1⟩, by simp [exPlanF], rfl⟩, rfl, ?_⟩
  intro h
  rw [show get_lightcurves_designs ⟨some exGen0, some exPlanF, some []⟩ (fun _ => [])
    (fun _ _ => true) = .ok [] from rfl] at h
  exact Except.noConfusion h

/-- C7 (amended): a run with unset generator, plan or instruments fails with
the not-configured error before anything else, regardless of the catalog; a
configured run over a nonempty transient catalog whose cadence uses a band
absent from the instrument dict fails as a whole with the unknown-instrument
error before any design is produced, so no row is silently dropped; with an
empty transient catalog the checks never run and the run returns an empty
collection. -/
theorem C7_run_fails_fast (s : Survey)
    (coord2field : List (ℚ × ℚ) → List (List ℕ))
    (inField : CadRow → ℚ × ℚ → Bool) :
    ((s.generator = none ∨ s.plan = none ∨ s.instruments = none) →
      get_lightcurves_designs s coord2field inField = .error .notConfigured) ∧
    (∀ gen plan instr, s = ⟨some gen, some plan, some instr⟩ →
      gen.ntransient ≠ 0 →
      (∃ r ∈ plan.cadence, lookupA instr r.band = none) →
      get_lightcurves_designs s coord2field inField = .error .unknownInstrument) := by
  constructor
  · intro h
    obtain ⟨g, p, i⟩ := s
    rcases h with h | h | h
    · have hg : g = none := h
      subst hg
      cases p <;> cases i <;> rfl
    · have hp : p = none := h
      subst hp
      cases g <;> cases i <;> rfl
    · have hi : i = none := h
      subst hi
      cases g <;> cases p <;> rfl
  · intro gen plan instr hs hnz hex
    subst hs
    have hall : ¬ ((plan.cadence.map (fun r => r.band)).all
        (fun b => (lookupA instr b).isSome) = true) := by
      rw [List.all_eq_true]
      intro hforall
      rcases hex with ⟨r, hr, hnone⟩
      have hmem := hforall r.band (List.mem_map_of_mem _ hr)
      rw [hnone] at hmem
      exact absurd hmem (by simp)
    show (if gen.ntransient = 0 then Except.ok []
      else observationsBody gen plan instr coord2field inField) = _
    rw [if_neg hnz]
    show (if (plan.cadence.map (fun r => r.band)).all
        (fun b => (lookupA instr b).isSome) then _ else _) = _
    rw [if_neg hall]

/-- Witness for C7: an unconfigured survey, and a configured one with one
transient whose single band g has no instrument entry. -/
theorem C7_run_fails_fast_witness :
    get_lightcurves_designs ⟨none, none, none⟩ (fun _ => []) (fun _ _ => true) =
      .error .notConfigured ∧
    get_lightcurves_designs ⟨some exGen, some exPlanF, some []⟩ (fun _ => [])
      (fun _ _ => true) = .error .unknownInstrument :=
  ⟨(C7_run_fails_fast ⟨none, none, none⟩ (fun _ => []) (fun _ _ => true)).1
      (Or.inl rfl),
   (C7_run_fails_fast ⟨some exGen, some exPlanF, some []⟩ (fun _ => [])
      (fun _ _ => true)).2 exGen exPlanF [] rfl (by decide)
      ⟨⟨0, "g", 1, 10, 10, some 1⟩, by simp [exPlanF], rfl⟩⟩

/-- C9 counterexample: a configured survey over a custom-pointings-only plan
(no field catalog) with all bands known, but an empty transient catalog: the
field assignment is None, yet the run returns an empty collection instead of
failing with the type error, so the original claim fails as stated. -/
theorem C9_counterexample :
    get_obs_fields exPlanC (fun _ => []) (exGen0.ra.zip exGen0.dec) = none ∧
    get_lightcurves_designs ⟨some exGen0, some exPlanC, some exInstrG⟩ (fun _ => [])
      (fun _ _ => true) = .ok [] ∧
    get_lightcurves_designs ⟨some exGen0, some exPlanC, some exInstrG⟩ (fun _ => [])
      (fun _ _ => true) ≠ .error .typeError := by
  refine ⟨rfl, rfl, ?_⟩
  intro h
  rw [show get_lightcurves_designs ⟨some exGen0, some exPlanC, some exInstrG⟩
    (fun _ => []) (fun _ _ => true) = .ok [] from rfl] at h
  exact Except.noConfusion h

/-- C9 (amended): when the field catalog is unset, or every pointing row
carries the sentinel field, the batched field assignment `get_obs_fields`
returns None; a fully configured run over a nonempty transient catalog with
all bands known then fails with the type error raised when iterating
observations, so a custom-pointings-only plan cannot produce lightcurves;
with an empty transient catalog the deferred generator body never runs and
the run returns an empty collection. -/
theorem C9_custom_only_plan_fails (gen : Generator) (plan : Plan)
    (instr : List (String × InstSpec))
    (coord2field : List (ℚ × ℚ) → List (List ℕ))
    (inField : CadRow → ℚ × ℚ → Bool)
    (hnz : gen.ntransient ≠ 0)
    (hfields : plan.hasFields = false ∨ ∀ r ∈ plan.cadence, r.field = none)
    (hbands : (plan.cadence.map (fun r => r.band)).all
      (fun b => (lookupA instr b).isSome) = true) :
    get_obs_fields plan coord2field (gen.ra.zip gen.dec) = none ∧
    get_lightcurves_designs ⟨some gen, some plan, some instr⟩ coord2field inField =
      .error .typeError := by
  have hobs : get_obs_fields plan coord2field (gen.ra.zip gen.dec) = none := by
    unfold get_obs_fields
    rw [if_neg]
    intro hcond
    rcases hfields with h | h
    · rw [h] at hcond
      exact absurd hcond.1 (by simp)
    · apply hcond.2
      rw [List.all_eq_true]
      intro r hr
      rw [h r hr]
      rfl
  refine ⟨hobs, ?_⟩
  show (if gen.ntransient = 0 then Except.ok []
    else observationsBody gen plan instr coord2field inField) = _
  rw [if_neg hnz]
  show (if (plan.cadence.map (fun r => r.band)).all
      (fun b => (lookupA instr b).isSome) then _ else _) = _
  rw [if_pos hbands]
  simp only [hobs]

/-- Witness for C9: one transient, a plan with a single custom pointing and no
field catalog. -/
theorem C9_custom_only_plan_fails_witness :
    get_obs_fields exPlanC (fun _ => []) (exGen.ra.zip exGen.dec) = none ∧
    get_lightcurves_designs ⟨some exGen, some exPlanC, some exInstrG⟩ (fun _ => [])
      (fun _ _ => true) = .error .typeError :=
  C9_custom_only_plan_fails exGen exPlanC exInstrG (fun _ => []) (fun _ _ => true)
    (by decide) (Or.inl rfl) rfl

end Simsurvey
